import Mathlib

/-!
Verification of the voice_translation orchestration layer.

Shallow embedding of the Python sources:
  * `voicetranslation/models/translation.py`       (`Translator.translate`)
  * `voicetranslation/models/language_detector.py` (`LanguageDetector.detect`)
  * `voicetranslation/services/speech_recognition.py` (capture session)
  * `voicetranslation/utils/timeout.py`            (`TimeoutHandler`)
  * `voicetranslation/services/ai_assistant.py`    (`_process_query_sync`)
  * `voicetranslation/models/speech_recognition.py` (`SpeechRecognizer.recognize`)

Fallible external engines (Argos hop functions, the online translator, the
FastText detector, Vosk recognizers, the TTS backend) are modelled as
arbitrary `Except`-valued functions supplied through an environment record;
a Python `try/except` is an explicit `match` on the `Except` value.
Python dicts keyed by language-pair strings are association lists looked up
with `List.lookup`.
-/

namespace VoiceTranslation

/-- One external engine invocation performed by `Translator.translate`:
either the online translator or one offline Argos hop (named by its
`"src-tgt"` pair key). -/
inductive TCall where
  | online : TCall
  | hop : String → TCall
deriving DecidableEq, Repr

/-- Environment of `Translator`: `argos_available`, the
`translation_pairs` dict (pair key ↦ hop function, which may raise), the
`LanguageDetector().detect` call made inside `translate` (may raise), and
`_translate_online` (may raise). -/
structure TransEnv where
  argos_available : Bool
  pairs : List (String × (String → Except String String))
  detect : String → Except String String
  online : String → String → String → Except String String

/-- `f"{from_code}-{to_code}"`, the key format of `translation_pairs`. -/
def pairKey (src tgt : String) : String := src ++ "-" ++ tgt

/-- `f"[Translation not available for {src} to {tgt}]"`. -/
def sentinel (src tgt : String) : String :=
  "[Translation not available for " ++ src ++ " to " ++ tgt ++ "]"

/-- Python blankness test `not text or not text.strip()`: true iff every
character is whitespace (including the empty string). -/
def isBlank (s : String) : Bool := s.data.all Char.isWhitespace

/-- Lines 153-163 of `translation.py`: if `from_lang == 'auto'` or
`from_lang == to_lang`, run the language detector, defaulting to `'en'`
when detection raises; otherwise keep `from_lang`. -/
def resolvedFrom (env : TransEnv) (text from_lang to_lang : String) : String :=
  if from_lang = "auto" ∨ from_lang = to_lang then
    match env.detect text with
    | .ok l => l
    | .error _ => "en"
  else from_lang

/-- `Translator._get_intermediate_translations`: a two-hop path through
`'en'` when neither endpoint is `'en'`, else the single direct hop. -/
def getIntermediateTranslations (from_code to_code : String) :
    List (String × String) :=
  if from_code ≠ "en" ∧ to_code ≠ "en" then
    [(from_code, "en"), ("en", to_code)]
  else
    [(from_code, to_code)]

/-- The `for src, tgt in translations` loop of `Translator.translate`
(lines 192-200): feed each hop's output into the next; a missing pair key
returns the hop sentinel; a raising hop function is caught by the
enclosing `except` and falls through to the final sentinel for the
resolved pair (`fromL`, `toL`).  The second component records the engine
calls actually executed, in order. -/
def runHops (pairs : List (String × (String → Except String String)))
    (fromL toL : String) :
    List (String × String) → String → List TCall → String × List TCall
  | [], acc, tr => (acc, tr)
  | (s, t) :: rest, acc, tr =>
    match pairs.lookup (pairKey s t) with
    | none => (sentinel s t, tr)
    | some f =>
      match f acc with
      | .ok r => runHops pairs fromL toL rest r (tr ++ [.hop (pairKey s t)])
      | .error _ => (sentinel fromL toL, tr ++ [.hop (pairKey s t)])

/-- The offline block of `Translator.translate` (lines 180-206): direct
pair first, then the intermediate path, then the final sentinel; skipped
entirely (straight to the final sentinel) when Argos is unavailable. -/
def offlinePart (env : TransEnv) (text fromL toL : String)
    (tr : List TCall) : String × List TCall :=
  if env.argos_available then
    match env.pairs.lookup (pairKey fromL toL) with
    | some f =>
      match f text with
      | .ok r => (r, tr ++ [.hop (pairKey fromL toL)])
      | .error _ => (sentinel fromL toL, tr ++ [.hop (pairKey fromL toL)])
    | none => runHops env.pairs fromL toL
        (getIntermediateTranslations fromL toL) text tr
  else (sentinel fromL toL, tr)

/-- `Translator.translate(text, from_lang, to_lang, online)`.  Returns the
translated text together with the trace of engine calls executed. -/
def translateT (env : TransEnv) (text from_lang to_lang : String)
    (onl : Bool) : String × List TCall :=
  if isBlank text then ("", [])
  else
    let fromL := resolvedFrom env text from_lang to_lang
    if fromL = to_lang then (text, [])
    else
      if onl then
        match env.online text fromL to_lang with
        | .ok s =>
          if s ≠ "" then (s, [.online])
          else offlinePart env text fromL to_lang [.online]
        | .error _ => offlinePart env text fromL to_lang [.online]
      else offlinePart env text fromL to_lang []

/-! ### Language detector heuristic fallback (`language_detector.py`) -/

/-- Python `str.lower()` on one character.  The texts handled by the
heuristic are ASCII plus Hangul, on which ASCII lowering agrees with
Python's Unicode lowering (Hangul has no case). -/
def pyLowerChar (c : Char) : Char := c.toLower

/-- Python `text.lower()`. -/
def pyLower (s : String) : String := String.mk (s.data.map pyLowerChar)

/-- Accumulator pass over the characters implementing Python
`text.split()`: split on whitespace runs, discarding empty pieces. -/
def pySplitAux : List Char → List Char → List String
  | [], acc => if acc.isEmpty then [] else [String.mk acc.reverse]
  | c :: cs, acc =>
    if c.isWhitespace then
      if acc.isEmpty then pySplitAux cs []
      else String.mk acc.reverse :: pySplitAux cs []
    else pySplitAux cs (c :: acc)

/-- Python `text.split()` with no argument. -/
def pySplit (s : String) : List String := pySplitAux s.data []

/-- The fixed Filipino function-word list of `LanguageDetector.detect`. -/
def filipinoWords : List String :=
  ["ang", "ng", "mga", "sa", "at", "ay", "ko", "mo", "po", "ito"]

/-- `'가' <= c <= '힣'`: the Hangul-syllable test of the
heuristic. -/
def isHangul (c : Char) : Bool :=
  0xac00 ≤ c.val ∧ c.val ≤ 0xd7a3

/-- `sum(1 for c in text if '가' <= c <= '힣')`. -/
def koreanChars (s : String) : ℕ := (s.data.filter isHangul).length

/-- `sum(word in text.split() for word in filipino_words)`: how many of
the listed Filipino words occur as whitespace-delimited words of `s`. -/
def filipinoCount (s : String) : ℕ :=
  (filipinoWords.filter (fun w => w ∈ pySplit s)).length

/-- `max(1, len(text))`, the denominator of the Hangul fraction. -/
def textLen (s : String) : ℕ := max 1 s.length

/-- `korean_chars / text_len`, as an exact rational.  At the 30% boundary
this agrees with the Python float comparison: the double nearest to
`3 / 10` is exactly the double written `0.3`, so an exact-30% input fails
the strict `>` under both semantics. -/
def koreanPercentage (s : String) : ℚ := (koreanChars s : ℚ) / (textLen s : ℚ)

/-- `LanguageDetector.detect` in the configuration the claim fixes:
`self.model is None` (statistical detector disabled/unavailable), so the
empty-text guard runs and then the heuristic fallback (lines 113-136 of
`language_detector.py`). -/
def detectNoModel (text : String) : String :=
  if isBlank text then "en"
  else
    let t := pyLower text
    if koreanPercentage t > 3 / 10 then "ko"
    else if filipinoCount t ≥ 2 then "tl"
    else "en"

/-! ### Capture-session controller (`services/speech_recognition.py`) -/

/-- The module-level mutable state of `services/speech_recognition.py`
that `record_audio` reads and writes.  `M` is the (abstract) Vosk model
type, `R` the recognizer type; `models` is the module's `models` dict as
an association list in insertion order. -/
structure SRState (M R : Type) where
  is_recording : Bool
  stop_recording : Bool
  current_recognizer : Option R
  current_model : Option M
  current_language : Option String
  models : List (String × M)
deriving Repr

/-- `create_recognizer(language)`: fall back to `'en'` when the requested
language has no model, else to the first loaded model
(`next(iter(models), None)`), else fail with `None`; on success set the
`current_*` globals and return the new recognizer built by `mkRec`. -/
def create_recognizer {M R : Type} (mkRec : M → R) (s : SRState M R)
    (language : String) : Option R × SRState M R :=
  let lang : Option String :=
    if (s.models.lookup language).isSome then some language
    else if (s.models.lookup "en").isSome then some "en"
    else s.models.head?.map (·.1)
  match lang with
  | none => (none, s)
  | some l =>
    match s.models.lookup l with
    | some m =>
      let r := mkRec m
      (some r, { s with current_model := some m, current_recognizer := some r,
                        current_language := some l })
    | none => (none, s)

/-- `record_audio(callback, language)` up to the point where the capture
thread is spawned: reject while already recording, clear the stop flag,
(re)create the recognizer when the language changed or none exists, and
set `is_recording` on success.  Returns the boolean the Python function
returns plus the updated module state. -/
def record_audio {M R : Type} (mkRec : M → R) (s : SRState M R)
    (language : String) : Bool × SRState M R :=
  if s.is_recording then (false, s)
  else
    let s1 := { s with stop_recording := false }
    if s1.current_language ≠ some language ∨ s1.current_recognizer.isNone then
      match create_recognizer mkRec s1 language with
      | (none, s2) => (false, s2)
      | (some _, s2) => (true, { s2 with is_recording := true })
    else (true, { s1 with is_recording := true })

/-- One iteration's worth of input to `_record_audio_thread`'s loop:
the stop flag observed at the loop head, `time.time()` for the iteration,
the computed `volume_norm` of the frame, and the recognizer's
`AcceptWaveform` outcome (`some t`: accepted with `Result()` text `t`;
`none`: not accepted). -/
structure Frame where
  stop : Bool
  time : ℚ
  volume : ℚ
  accept : Option String
deriving Repr

/-- Timeout configuration of the capture loop. -/
structure RecCfg where
  silenceTimeout : ℚ
  inactivityTimeout : ℚ
deriving Repr

/-- Mutable loop state of `_record_audio_thread`: `last_audio_time`,
`silence_start_time`, `final_result["text"]`, plus the chronological list
of callback invocations made so far (text, final flag). -/
structure LoopSt where
  lastAudio : ℚ
  silenceStart : Option ℚ
  finalResult : String
  ems : List (String × Bool)
deriving Repr

/-- Lines 180-185: feed the frame to Vosk; an accepted non-blank chunk
updates `final_result` and is emitted as a partial (`final=False`)
callback. -/
def procAccept (st : LoopSt) (f : Frame) : LoopSt :=
  match f.accept with
  | some t =>
    if isBlank t then st
    else { st with finalResult := t, ems := st.ems ++ [(t, false)] }
  | none => st

/-- The `while not stop_recording.is_set()` loop of
`_record_audio_thread` (lines 150-185): activity resets the silence
tracking; a silent frame starts/extends it and may break on the silence
or inactivity timeout before the frame reaches the recognizer. -/
def recordLoop (cfg : RecCfg) : LoopSt → List Frame → LoopSt
  | st, [] => st
  | st, f :: rest =>
    if f.stop then st
    else
      if f.volume > 1 / 100 then
        let st1 := { st with lastAudio := f.time, silenceStart := none }
        recordLoop cfg (procAccept st1 f) rest
      else
        let sStart := st.silenceStart.getD f.time
        let st1 := { st with silenceStart := some sStart }
        if f.time - sStart > cfg.silenceTimeout then st1
        else if f.time - st1.lastAudio > cfg.inactivityTimeout then st1
        else recordLoop cfg (procAccept st1 f) rest

/-- `_record_audio_thread` after the stream opens, as a function of the
frame sequence and the recognizer's `FinalResult()` text `flushText`:
run the loop from `last_audio_time = t0`, take the flush text when
non-blank else the last committed chunk, emit it as the `final=True`
callback only when non-blank, and clear `is_recording` (the `finally`
block).  Result: (callback invocations in order, `is_recording` after). -/
def recordThread (cfg : RecCfg) (t0 : ℚ) (frames : List Frame)
    (flushText : String) : List (String × Bool) × Bool :=
  let st0 : LoopSt := ⟨t0, none, "", []⟩
  let st := recordLoop cfg st0 frames
  let fr := if isBlank flushText then st.finalResult else flushText
  let ems := if isBlank fr then st.ems else st.ems ++ [(fr, true)]
  (ems, false)

/-! ### Timeout scheduler (`utils/timeout.py`) -/

/-- One `threading.Timer` created by `reset_silence_timer`: armed at
`armedAt` for `duration` seconds; `cancelledAt` records the time of the
`cancel()` call, if any.  The timer fires at `armedAt + duration` unless
cancelled strictly before that deadline (cancelling after the fire has no
effect, matching `threading.Timer.cancel`). -/
structure Arm where
  armedAt : ℚ
  duration : ℚ
  cancelledAt : Option ℚ
deriving Repr

/-- The time at which an arm fires its callback, if it ever does: the
deadline, unless a cancel landed strictly before it. -/
def armFires (a : Arm) : Option ℚ :=
  match a.cancelledAt with
  | none => some (a.armedAt + a.duration)
  | some c =>
    if c < a.armedAt + a.duration then none else some (a.armedAt + a.duration)

/-- History of the silence timer slot of a `TimeoutHandler`: the pending
(never-cancelled) timer currently stored in `self.silence_timer`, and the
log of timers it has replaced, each stamped with its cancel time. -/
structure SilState where
  pending : Option Arm
  log : List Arm
deriving Repr

/-- `TimeoutHandler.reset_silence_timer`, called at time `now` with the
handler's `silence_timeout`: cancel the existing timer (if any) and
start a fresh one. -/
def reset_silence_timer (timeout : ℚ) (s : SilState) (now : ℚ) : SilState :=
  { pending := some ⟨now, timeout, none⟩,
    log := s.log ++ (match s.pending with
      | some a => [{ a with cancelledAt := some now }]
      | none => []) }

/-- All timers ever created in this slot. -/
def allArms (s : SilState) : List Arm := s.log ++ s.pending.toList

/-- The multiset of callback fire times produced by the slot's history. -/
def firesOf (s : SilState) : List ℚ := (allArms s).filterMap armFires

/-- A sequence of `reset_silence_timer` calls at the given times, starting
from a fresh handler (`self.silence_timer = None`). -/
def runResets (timeout : ℚ) (ts : List ℚ) : SilState :=
  ts.foldl (reset_silence_timer timeout) ⟨none, []⟩

/-! ### Assistant pipeline (`services/ai_assistant.py`) -/

/-- The response dict built by `_process_query_sync`.  The success path
omits the `'error'` key, modelled as `error = none`;  `β` is the audio
payload type of the TTS backend. -/
structure AResponse (β : Type) where
  text : String
  audio : Option β
  source_language : String
  target_language : String
  error : Option String

/-- Collaborators of `_process_query_sync`: the assistant model's
`generate_response` (folded together with `get_ai_assistant`, either of
which may raise), the `_translator` global (possibly `None`; its
`translate` is total, cf. the translation-router theorems), and the
`_tts` global (possibly `None`; `speak` may raise). -/
structure AEnv (β : Type) where
  generate : String → String → Except String String
  translatorPresent : Bool
  translateFn : String → String → String → String
  ttsPresent : Bool
  tts : String → String → Except String β

/-- The localized apology table of `_process_query_sync`, with the
baseline-English default of `error_messages.get(response_lang,
error_messages['en'])`. -/
def errorMessage (lang : String) : String :=
  if lang = "en" then "I'm sorry, I couldn't process your request."
  else if lang = "tl" then "Paumanhin, hindi ko maproseso ang iyong kahilingan."
  else if lang = "ko" then "죄송합니다, 요청을 처리할 수 없습니다."
  else "I'm sorry, I couldn't process your request."

/-- `_process_query_sync(english_query, source_lang, response_lang)`:
generate the English response, translate it to `response_lang` when
needed, attempt TTS with its failure swallowed (`audio = None`), and
convert any pipeline exception into the localized error response. -/
def process_query_sync {β : Type} (env : AEnv β)
    (english_query source_lang response_lang : String) : AResponse β :=
  match env.generate english_query "en" with
  | .error e =>
    { text := errorMessage response_lang, audio := none,
      source_language := source_lang, target_language := response_lang,
      error := some e }
  | .ok english_response =>
    let translated :=
      if response_lang ≠ "en" ∧ env.translatorPresent then
        env.translateFn english_response "en" response_lang
      else english_response
    let audio : Option β :=
      if env.ttsPresent then
        match env.tts translated response_lang with
        | .ok a => some a
        | .error _ => none
      else none
    { text := translated, audio := audio, source_language := source_lang,
      target_language := response_lang, error := none }

/-! ### Offline recognizer model (`models/speech_recognition.py`) -/

/-- Instance state of `SpeechRecognizer` that `recognize` consults:
`vosk_available`, the `models` dict and the `recognizers` dict. -/
structure RecState (M R : Type) where
  vosk_available : Bool
  models : List (String × M)
  recognizers : List (String × R)

/-- External behaviour `SpeechRecognizer.recognize` delegates to:
`download` is the effect of `_download_model` on the `models` dict (all
its internal failures are caught, so it totally transforms the dict);
`mkRec` is `KaldiRecognizer(model, 16000)` (may raise); `accept` runs
`AcceptWaveform` and extracts `Result()['text']` (`(true, t)`) or
`PartialResult()['partial']` (`(false, p)`) and may raise; `onlineRec` is
`_recognize_online` (may raise). -/
structure RecOps (α M R : Type) where
  download : String → List (String × M) → List (String × M)
  mkRec : M → Except String R
  accept : R → α → Except String (Bool × String)
  onlineRec : α → String → Except String String

/-- The `try` block of `SpeechRecognizer.recognize` (lines 183-201), run
with a language that the guard has ensured is in `models`: create (and
cache) a recognizer if needed, process the audio, and turn any raise into
`"[Speech recognition error]"`.  A missing model here would be a
`KeyError`, likewise caught. -/
def recognizeCore {α M R : Type} (ops : RecOps α M R)
    (models : List (String × M)) (recognizers : List (String × R))
    (language : String) (audio : α) : String × List (String × R) :=
  let recE : Except String (R × List (String × R)) :=
    match recognizers.lookup language with
    | some r => .ok (r, recognizers)
    | none =>
      match models.lookup language with
      | some m => (ops.mkRec m).map (fun r => (r, recognizers ++ [(language, r)]))
      | none => .error "KeyError"
  match recE with
  | .error _ => ("[Speech recognition error]", recognizers)
  | .ok (r, recs) =>
    match ops.accept r audio with
    | .ok (true, t) => (t, recs)
    | .ok (false, p) => (p, recs)
    | .error _ => ("[Speech recognition error]", recs)

/-- The offline part of `SpeechRecognizer.recognize` (lines 169-201):
unavailable-library sentinel, model lookup with a download attempt and a
silent English-model substitution, missing-model sentinel, then the
recognition proper. -/
def recognizeOffline {α M R : Type} (ops : RecOps α M R)
    (s : RecState M R) (audio : α) (language : String) :
    String × RecState M R :=
  if ¬s.vosk_available then ("[Speech recognition unavailable]", s)
  else
    let (lang, models') :=
      if (s.models.lookup language).isNone then
        let m' := ops.download language s.models
        if (m'.lookup language).isNone ∧ (m'.lookup "en").isSome then
          ("en", m')
        else (language, m')
      else (language, s.models)
    if (models'.lookup lang).isNone then
      ("[Speech recognition model not available]", { s with models := models' })
    else
      let (res, recs') := recognizeCore ops models' s.recognizers lang audio
      (res, { s with models := models', recognizers := recs' })

/-- `SpeechRecognizer.recognize(audio_data, language, online)`: an online
attempt whose failure falls back to the offline path. -/
def recognize {α M R : Type} (ops : RecOps α M R) (s : RecState M R)
    (audio : α) (language : String) (online : Bool) :
    String × RecState M R :=
  if online then
    match ops.onlineRec audio language with
    | .ok t => (t, s)
    | .error _ => recognizeOffline ops s audio language
  else recognizeOffline ops s audio language

/-! ### Theorems -/

/-- C3: `translate` never raises: with an arbitrary (hence possibly
always-failing) detector, online engine and hop table, and Argos absent,
every call still returns a plain string, and on total failure it is the
sentinel embedding the (resolved) requested language pair.  Detection
failure is absorbed inside `resolvedFrom` (defaulting to `"en"`), an
online failure or empty online result falls through to the offline path,
and the absent offline engine yields the final sentinel. -/
theorem translate_total_failure_sentinel (env : TransEnv)
    (text from_lang to_lang : String) (onl : Bool)
    (ht : isBlank text = false)
    (hneq : resolvedFrom env text from_lang to_lang ≠ to_lang)
    (hargos : env.argos_available = false)
    (honline : ∀ s, env.online text (resolvedFrom env text from_lang to_lang)
        to_lang = .ok s → s = "") :
    translateT env text from_lang to_lang onl =
      (sentinel (resolvedFrom env text from_lang to_lang) to_lang,
       if onl then [TCall.online] else []) := by
  unfold translateT
  rw [if_neg (by simp [ht]), if_neg hneq]
  have hoff : offlinePart env text (resolvedFrom env text from_lang to_lang)
      to_lang (if onl then [TCall.online] else []) =
      (sentinel (resolvedFrom env text from_lang to_lang) to_lang,
       if onl then [TCall.online] else []) := by
    unfold offlinePart
    rw [hargos]
    simp
  cases onl with
  | false => simpa using hoff
  | true =>
    simp only [if_pos]
    cases hon : env.online text (resolvedFrom env text from_lang to_lang)
        to_lang with
    | error e => simpa using hoff
    | ok s =>
      have : s = "" := honline s hon
      subst this
      simpa using hoff

/-- Witness for C3: every engine failing, `from='auto'`, detector raising
(so resolution defaults to `'en'`), online mode requested: the result is
the sentinel for the resolved pair with the failed online attempt
traced. -/
theorem translate_total_failure_sentinel_witness :
    translateT ⟨false, [], fun _ => .error "boom", fun _ _ _ => .error "net"⟩
      "hi" "auto" "tl" true =
      ("[Translation not available for en to tl]", [TCall.online]) := by
  have h := translate_total_failure_sentinel
    ⟨false, [], fun _ => .error "boom", fun _ _ _ => .error "net"⟩
    "hi" "auto" "tl" true (by decide) (by decide) rfl
    (fun s hs => by simp [TransEnv.online] at hs)
  simpa [resolvedFrom, sentinel] using h

/-- C4 counterexample: with the statistical detector resolving the text to
`'ko'`, `translate("hi", "en", "en", offline)` is *not* the identity: the
`from == to` branch re-detects the language and the call proceeds to
translate (here, to the not-available sentinel), so the claimed
unconditional identity for `translate(text, L, L, *)` fails. -/
theorem translate_same_lang_not_identity :
    (translateT ⟨false, [], fun _ => .ok "ko", fun _ _ _ => .error ""⟩
      "hi" "en" "en" false).1 ≠ "hi" := by
  decide

/-- C4 (amended): for non-blank text, whenever the source is `'auto'` or
equals the target — the two cases in which `translate` invokes the
Language Resolver — and the resolver resolves the text to the target
language, `translate` returns the text unchanged with no engine call. -/
theorem translate_identity_when_detector_agrees (env : TransEnv)
    (text from_lang to_lang : String) (onl : Bool)
    (ht : isBlank text = false)
    (htrig : from_lang = "auto" ∨ from_lang = to_lang)
    (hdet : env.detect text = .ok to_lang) :
    translateT env text from_lang to_lang onl = (text, []) := by
  have hres : resolvedFrom env text from_lang to_lang = to_lang := by
    unfold resolvedFrom
    rw [if_pos htrig, hdet]
  unfold translateT
  rw [if_neg (by simp [ht]), hres]
  simp

/-- Witness for C4 (amended): a detector resolving to `'en'` makes
`translate("hi", "en", "en", offline)` the identity. -/
theorem translate_identity_when_detector_agrees_witness :
    translateT ⟨true, [], fun _ => .ok "en", fun _ _ _ => .error ""⟩
      "hi" "en" "en" false = ("hi", []) :=
  translate_identity_when_detector_agrees
    ⟨true, [], fun _ => .ok "en", fun _ _ _ => .error ""⟩
    "hi" "en" "en" false (by decide) (Or.inr rfl) rfl

/-- C5: at most one capture session is active: calling `record_audio`
while `is_recording` is set returns `False` and leaves the whole module
state (recognizer, language, flags) untouched, and conversely a call that
returns `True` can only have started from the idle state. -/
theorem record_audio_single_session {M R : Type} (mkRec : M → R)
    (s : SRState M R) (language : String) :
    (s.is_recording = true → record_audio mkRec s language = (false, s)) ∧
    ((record_audio mkRec s language).1 = true → s.is_recording = false) := by
  constructor
  · intro h
    unfold record_audio
    rw [if_pos h]
  · intro h
    by_contra hrec
    have hrec' : s.is_recording = true := by
      cases hval : s.is_recording with
      | true => rfl
      | false => exact absurd hval hrec
    unfold record_audio at h
    rw [if_pos hrec'] at h
    simp at h

/-- Witness for C5: a concrete capturing state; the second `start` is a
no-op returning `false` with the state returned verbatim. -/
theorem record_audio_single_session_witness :
    record_audio (fun m => m) (⟨true, false, some 4, some 9, some "en",
      [("en", 9)]⟩ : SRState ℕ ℕ) "ko" =
      (false, ⟨true, false, some 4, some 9, some "en", [("en", 9)]⟩) :=
  (record_audio_single_session (fun m => m)
    ⟨true, false, some 4, some 9, some "en", [("en", 9)]⟩ "ko").1 rfl

/-- C9: a TTS failure inside the assistant pipeline is swallowed: when
inference succeeds and the synthesis adapter raises, the response carries
`audio = none` and `error = none`, and its text is still the translated
inference result. -/
theorem assistant_tts_failure_swallowed {β : Type} (env : AEnv β)
    (q sl rl eng err : String)
    (hgen : env.generate q "en" = .ok eng)
    (htts : env.tts (if rl ≠ "en" ∧ env.translatorPresent then
        env.translateFn eng "en" rl else eng) rl = .error err) :
    process_query_sync env q sl rl =
      { text := if rl ≠ "en" ∧ env.translatorPresent then
          env.translateFn eng "en" rl else eng,
        audio := none, source_language := sl, target_language := rl,
        error := none } := by
  unfold process_query_sync
  rw [hgen]
  simp only [htts]
  cases hp : env.ttsPresent <;> simp

/-- Witness for C9: a concrete pipeline whose TTS adapter always raises:
the response keeps the translated text, `audio = none`, `error = none`. -/
theorem assistant_tts_failure_swallowed_witness :
    process_query_sync (β := ℕ)
      ⟨fun _ _ => .ok "resp", true, fun a _ c => a ++ "-" ++ c, true,
        fun _ _ => .error "boom"⟩ "hi" "ko" "tl" =
      { text := "resp-tl", audio := none, source_language := "ko",
        target_language := "tl", error := none } := by
  have h := assistant_tts_failure_swallowed (β := ℕ)
    ⟨fun _ _ => .ok "resp", true, fun a _ c => a ++ "-" ++ c, true,
      fun _ _ => .error "boom"⟩ "hi" "ko" "tl" "resp" "boom" rfl rfl
  simpa using h

/-- C1 counterexample: the pair `(en, ko)` is supported, `en ≠ ko`, and
its direct key `"en-ko"` is unregistered (empty pair table, Argos
available), yet the router resolves it to the *single* hop `(en, ko)` —
not the claimed two hops `(en, en)`, `(en, ko)` — and the returned
sentinel names the original pair itself rather than a distinct
unavailable hop. -/
theorem translate_two_hop_counterexample :
    getIntermediateTranslations "en" "ko" = [("en", "ko")] ∧
    getIntermediateTranslations "en" "ko" ≠ [("en", "en"), ("en", "ko")] ∧
    (translateT ⟨true, [], fun _ => .error "", fun _ _ _ => .error ""⟩
      "hi" "en" "ko" false).1 =
      "[Translation not available for en to ko]" := by
  refine ⟨by decide, by decide, ?_⟩
  decide

/-- C1 (amended): for non-blank text and a supported pair `(A, B)` with
`A ≠ B` and *both endpoints different from the baseline `'en'`*, when the
direct key is unregistered and Argos is available the router resolves the
request to exactly the two hops `(A, en)`, `(en, B)`, executes them
left-to-right feeding the first hop's output into the second, and returns
the sentinel naming the specific unregistered hop; no resolved path ever
exceeds two hops.  (Pairs whose source or target is the baseline instead
resolve to the single direct hop, cf. the counterexample.) -/
theorem translate_two_hop_routing (env : TransEnv) (text A B : String)
    (ht : isBlank text = false)
    (hAsup : A ∈ ["en", "tl", "ko"]) (hBsup : B ∈ ["en", "tl", "ko"])
    (hAB : A ≠ B) (hAe : A ≠ "en") (hBe : B ≠ "en")
    (hargos : env.argos_available = true)
    (hdirect : env.pairs.lookup (pairKey A B) = none) :
    getIntermediateTranslations A B = [(A, "en"), ("en", B)] ∧
    (∀ a b, (getIntermediateTranslations a b).length ≤ 2) ∧
    (env.pairs.lookup (pairKey A "en") = none →
      translateT env text A B false = (sentinel A "en", [])) ∧
    (∀ f y, env.pairs.lookup (pairKey A "en") = some f → f text = .ok y →
      env.pairs.lookup (pairKey "en" B) = none →
      translateT env text A B false =
        (sentinel "en" B, [TCall.hop (pairKey A "en")])) ∧
    (∀ f g y z, env.pairs.lookup (pairKey A "en") = some f →
      f text = .ok y →
      env.pairs.lookup (pairKey "en" B) = some g → g y = .ok z →
      translateT env text A B false =
        (z, [TCall.hop (pairKey A "en"), TCall.hop (pairKey "en" B)])) := by
  have hAauto : A ≠ "auto" := by
    intro h; subst h; simp at hAsup
  have hres : resolvedFrom env text A B = A := by
    unfold resolvedFrom
    rw [if_neg]
    push_neg
    exact ⟨hAauto, hAB⟩
  have hpath : getIntermediateTranslations A B = [(A, "en"), ("en", B)] := by
    unfold getIntermediateTranslations
    rw [if_pos ⟨hAe, hBe⟩]
  have hbase : translateT env text A B false =
      runHops env.pairs A B [(A, "en"), ("en", B)] text [] := by
    unfold translateT
    rw [if_neg (by simp [ht])]
    simp only [hres, if_neg hAB, Bool.false_eq_true, if_false]
    unfold offlinePart
    rw [hargos, if_pos rfl, hdirect, hpath]
  refine ⟨hpath, ?_, ?_, ?_, ?_⟩
  · intro a b
    unfold getIntermediateTranslations
    by_cases h : a ≠ "en" ∧ b ≠ "en" <;> simp [h]
  · intro h1
    rw [hbase]
    unfold runHops
    rw [h1]
  · intro f y h1 hy h2
    rw [hbase]
    simp only [runHops, h1, hy, h2, List.nil_append]
  · intro f g y z h1 hy h2 hz
    rw [hbase]
    simp only [runHops, h1, hy, h2, hz, List.nil_append]
    rfl

/-- Witness for C1 (amended): `ko → tl` with only `ko-en` and `en-tl`
registered executes exactly the chain `ko-en` then `en-tl` and returns
the second hop's output on the first hop's output. -/
theorem translate_two_hop_routing_witness :
    translateT ⟨true, [("ko-en", fun _ => .ok "E"),
        ("en-tl", fun s => .ok (s ++ "T"))],
      fun _ => .error "", fun _ _ _ => .error ""⟩ "hi" "ko" "tl" false =
      ("ET", [TCall.hop "ko-en", TCall.hop "en-tl"]) := by
  have h := (translate_two_hop_routing
    ⟨true, [("ko-en", fun _ => .ok "E"), ("en-tl", fun s => .ok (s ++ "T"))],
      fun _ => .error "", fun _ _ _ => .error ""⟩ "hi" "ko" "tl"
    (by decide) (by decide) (by decide) (by decide) (by decide) (by decide)
    rfl (by rfl)).2.2.2.2
  exact h (fun _ => .ok "E") (fun s => .ok (s ++ "T")) "E" "ET" rfl rfl rfl rfl

/-- C2 counterexample: with only `ko-en` registered, the request
`ko → tl` resolves to the path `[(ko, en), (en, tl)]` whose second hop is
unregistered; the call returns the "not available" sentinel *yet the
first hop's engine was invoked* — one engine call, not the claimed
zero. -/
theorem translate_zero_calls_counterexample :
    translateT ⟨true, [("ko-en", fun _ => .ok "E")],
        fun _ => .error "", fun _ _ _ => .error ""⟩ "hi" "ko" "tl" false =
      ("[Translation not available for en to tl]", [TCall.hop "ko-en"]) ∧
    ([TCall.hop "ko-en"] : List TCall) ≠ [] := by
  exact ⟨by decide, by decide⟩

/-- C2 (amended): hop registration is checked lazily, hop by hop, not
before execution: a request whose *first* resolved hop is unregistered
returns that hop's sentinel with zero engine calls, but when the first
hop is registered (and succeeds) and the second is unregistered, the
sentinel for the second hop is returned *after* the first hop's engine
has executed — exactly one engine call, a partial side effect. -/
theorem translate_lazy_hop_check (env : TransEnv) (text A B : String)
    (ht : isBlank text = false)
    (hAauto : A ≠ "auto") (hAB : A ≠ B)
    (hargos : env.argos_available = true)
    (hdirect : env.pairs.lookup (pairKey A B) = none) :
    (∀ s t rest, getIntermediateTranslations A B = (s, t) :: rest →
      env.pairs.lookup (pairKey s t) = none →
      translateT env text A B false = (sentinel s t, [])) ∧
    (∀ f y, A ≠ "en" → B ≠ "en" →
      env.pairs.lookup (pairKey A "en") = some f → f text = .ok y →
      env.pairs.lookup (pairKey "en" B) = none →
      translateT env text A B false =
        (sentinel "en" B, [TCall.hop (pairKey A "en")])) := by
  have hres : resolvedFrom env text A B = A := by
    unfold resolvedFrom
    rw [if_neg]
    push_neg
    exact ⟨hAauto, hAB⟩
  have hbase : translateT env text A B false =
      runHops env.pairs A B (getIntermediateTranslations A B) text [] := by
    unfold translateT
    rw [if_neg (by simp [ht])]
    simp only [hres, if_neg hAB, Bool.false_eq_true, if_false]
    unfold offlinePart
    rw [hargos, if_pos rfl, hdirect]
  constructor
  · intro s t rest hpath h1
    rw [hbase, hpath]
    unfold runHops
    rw [h1]
  · intro f y hAe hBe h1 hy h2
    have hpath : getIntermediateTranslations A B = [(A, "en"), ("en", B)] := by
      unfold getIntermediateTranslations
      rw [if_pos ⟨hAe, hBe⟩]
    rw [hbase, hpath]
    simp only [runHops, h1, hy, h2, List.nil_append]

/-- Witness for C2 (amended): first conjunct at a request whose first hop
is unregistered — the sentinel comes back with an empty engine trace. -/
theorem translate_lazy_hop_check_witness :
    translateT ⟨true, [], fun _ => .error "", fun _ _ _ => .error ""⟩
      "hi" "ko" "tl" false =
      ("[Translation not available for ko to en]", []) := by
  have h := (translate_lazy_hop_check
    ⟨true, [], fun _ => .error "", fun _ _ _ => .error ""⟩ "hi" "ko" "tl"
    (by decide) (by decide) (by decide) rfl rfl).1 "ko" "en" [("en", "tl")]
    (by decide) rfl
  simpa [sentinel] using h

/-- The Hangul-fraction comparison `korean_chars / text_len > 0.3`, made
decidable over the naturals: since `text_len ≥ 1`, the exact rational
comparison is equivalent to `3 * text_len < korean_chars * 10`. -/
theorem koreanPercentage_gt_iff (s : String) :
    koreanPercentage s > 3 / 10 ↔ 3 * textLen s < koreanChars s * 10 := by
  have h1 : (1 : ℕ) ≤ textLen s := le_max_left _ _
  have hn : (0 : ℚ) < (textLen s : ℚ) := by exact_mod_cast h1
  unfold koreanPercentage
  rw [gt_iff_lt, div_lt_div_iff₀ (by norm_num) hn]
  exact_mod_cast Iff.rfl

/-- C7 counterexample: `"가가가abcdefg"` has exactly 30% Hangul
characters (3 of 10) and no Filipino function words, so the fraction
satisfies the claimed `≥ 0.3` bound, yet the heuristic returns `"en"`,
not `"ko"` — the code's test is strict (`> 0.3`), not `≥ 0.3`. -/
theorem detect_fallback_counterexample :
    koreanPercentage (pyLower "가가가abcdefg") = 3 / 10 ∧
    detectNoModel "가가가abcdefg" = "en" ∧
    detectNoModel "가가가abcdefg" ≠ "ko" := by
  have hk : koreanChars (pyLower "가가가abcdefg") = 3 := by decide
  have hn : textLen (pyLower "가가가abcdefg") = 10 := by decide
  have hperc : koreanPercentage (pyLower "가가가abcdefg") = 3 / 10 := by
    unfold koreanPercentage
    rw [hk, hn]
    norm_num
  have hden : detectNoModel "가가가abcdefg" = "en" := by
    simp only [detectNoModel]
    rw [if_neg (by decide), if_neg (by rw [hperc]; norm_num),
      if_neg (by decide)]
  exact ⟨hperc, hden, by rw [hden]; decide⟩

/-- C7 (amended): on non-blank text, with the statistical detector
disabled, the fallback returns `'ko'` exactly when the Hangul fraction of
the lowered text is *strictly greater* than 0.3; otherwise it returns
`'tl'` when at least two listed Filipino function words occur, and `'en'`
otherwise — the Korean-script test taking precedence over the Filipino
word count. -/
theorem detect_fallback_characterization (text : String)
    (ht : isBlank text = false) :
    (koreanPercentage (pyLower text) > 3 / 10 →
      detectNoModel text = "ko") ∧
    (koreanPercentage (pyLower text) ≤ 3 / 10 →
      2 ≤ filipinoCount (pyLower text) → detectNoModel text = "tl") ∧
    (koreanPercentage (pyLower text) ≤ 3 / 10 →
      filipinoCount (pyLower text) < 2 → detectNoModel text = "en") := by
  refine ⟨?_, ?_, ?_⟩
  · intro hko
    simp only [detectNoModel]
    rw [if_neg (by simp [ht]), if_pos hko]
  · intro hko hfil
    simp only [detectNoModel]
    rw [if_neg (by simp [ht]), if_neg (not_lt.mpr hko), if_pos hfil]
  · intro hko hfil
    simp only [detectNoModel]
    rw [if_neg (by simp [ht]), if_neg (not_lt.mpr hko),
      if_neg (not_le.mpr hfil)]

/-- Witness for C7 (amended): an all-Hangul text (fraction 1 > 0.3) is
detected as Korean; a Filipino-function-word text below the Hangul
threshold is detected as Filipino; plain English text defaults to
English. -/
theorem detect_fallback_characterization_witness :
    detectNoModel "가" = "ko" ∧
    detectNoModel "ang mga bata" = "tl" ∧
    detectNoModel "hello there" = "en" := by
  have h1 := (detect_fallback_characterization "가" (by decide)).1
    ((koreanPercentage_gt_iff (pyLower "가")).mpr (by decide))
  have h2 := (detect_fallback_characterization "ang mga bata" (by decide)).2.1
    (not_lt.mp (fun h => absurd
      ((koreanPercentage_gt_iff (pyLower "ang mga bata")).mp h) (by decide)))
    (by decide)
  have h3 := (detect_fallback_characterization "hello there" (by decide)).2.2
    (not_lt.mp (fun h => absurd
      ((koreanPercentage_gt_iff (pyLower "hello there")).mp h) (by decide)))
    (by decide)
  exact ⟨h1, h2, h3⟩

/-- C6 counterexample: a capture session that ends with no recognized
text at all (no frames accepted, blank recognizer flush) makes *no*
`final=True` callback invocation — the final result is not "emitted via
the callback ... regardless of whether any text was produced". -/
theorem record_thread_no_final_counterexample :
    ¬ ∃ t, (t, true) ∈ (recordThread ⟨5, 10⟩ 0 [] "").1 := by
  intro ⟨t, hmem⟩
  simp [recordThread, recordLoop, isBlank] at hmem

/-- Feeding one frame to the recognizer (`procAccept`) either leaves the
callback list unchanged or appends exactly one non-blank partial
(`final=False`) invocation. -/
theorem procAccept_ems (st : LoopSt) (f : Frame) :
    (procAccept st f).ems = st.ems ∨
    ∃ t, isBlank t = false ∧ (procAccept st f).ems = st.ems ++ [(t, false)] := by
  unfold procAccept
  cases f.accept with
  | none => exact Or.inl rfl
  | some t =>
    by_cases hbl : isBlank t
    · simp [hbl]
    · exact Or.inr ⟨t, by simpa using hbl, by simp [hbl]⟩

/-- The capture loop only ever emits partial (`final=False`) results:
whatever it appends to the already-made callback list is a block of
`(text, False)` invocations. -/
theorem recordLoop_emits_partials (cfg : RecCfg) :
    ∀ (frames : List Frame) (st : LoopSt), ∃ ps : List String,
      (recordLoop cfg st frames).ems =
        st.ems ++ ps.map (fun t => (t, false)) := by
  intro frames
  induction frames with
  | nil => intro st; exact ⟨[], by simp [recordLoop]⟩
  | cons f rest ih =>
    intro st
    unfold recordLoop
    by_cases hstop : f.stop <;> simp only [hstop, if_true, if_false]
    · exact ⟨[], by simp⟩
    · simp only [Bool.false_eq_true, if_false]
      have hacc : ∀ st1 : LoopSt, st1.ems = st.ems →
          ∃ ps : List String, (recordLoop cfg (procAccept st1 f) rest).ems =
            st.ems ++ ps.map (fun t => (t, false)) := by
        intro st1 hems
        obtain ⟨ps', hp'⟩ := ih (procAccept st1 f)
        rcases procAccept_ems st1 f with h | ⟨t, hbt, h⟩
        · exact ⟨ps', by rw [hp', h, hems]⟩
        · refine ⟨t :: ps', ?_⟩
          rw [hp', h, hems]
          simp
      by_cases hvol : f.volume > 1 / 100
      · simp only [hvol, if_true]
        exact hacc _ rfl
      · simp only [hvol, if_false]
        by_cases hsil : f.time - st.silenceStart.getD f.time > cfg.silenceTimeout
        · simp only [hsil, if_true]
          exact ⟨[], by simp⟩
        · simp only [hsil, if_false]
          by_cases hina : f.time - st.lastAudio > cfg.inactivityTimeout
          · simp only [hina, if_true]
            exact ⟨[], by simp⟩
          · simp only [hina, if_false]
            exact hacc _ rfl

/-- C6 (amended): for every capture session — however it ends (stop flag,
silence timeout, inactivity timeout, or exhausted input) — the callback
sequence is a block of partial (`final=False`) results in chronological
order followed by at most one `final=True` invocation, which is present
exactly when the flushed/accumulated final text is non-blank; and the
session always returns to idle (`is_recording` cleared by the `finally`
block). -/
theorem record_thread_callback_shape (cfg : RecCfg) (t0 : ℚ)
    (frames : List Frame) (flushText : String) :
    ∃ (ps : List String) (tail : List (String × Bool)),
      recordThread cfg t0 frames flushText =
        (ps.map (fun t => (t, false)) ++ tail, false) ∧
      (tail = [] ∨ ∃ t, isBlank t = false ∧ tail = [(t, true)]) := by
  obtain ⟨ps, hp⟩ :=
    recordLoop_emits_partials cfg frames ⟨t0, none, "", []⟩
  simp only [List.nil_append] at hp
  have hthread : recordThread cfg t0 frames flushText =
      (if isBlank (if isBlank flushText
          then (recordLoop cfg ⟨t0, none, "", []⟩ frames).finalResult
          else flushText)
        then (recordLoop cfg ⟨t0, none, "", []⟩ frames).ems
        else (recordLoop cfg ⟨t0, none, "", []⟩ frames).ems ++
          [((if isBlank flushText
              then (recordLoop cfg ⟨t0, none, "", []⟩ frames).finalResult
              else flushText), true)], false) := rfl
  by_cases hbl : isBlank (if isBlank flushText
      then (recordLoop cfg ⟨t0, none, "", []⟩ frames).finalResult
      else flushText)
  · refine ⟨ps, [], ?_, Or.inl rfl⟩
    rw [hthread, if_pos hbl, hp]
    simp
  · refine ⟨ps, [((if isBlank flushText
        then (recordLoop cfg ⟨t0, none, "", []⟩ frames).finalResult
        else flushText), true)], ?_, Or.inr ⟨_, by simpa using hbl, rfl⟩⟩
    rw [hthread, if_neg hbl, hp]

/-- Auxiliary induction for the silence-timer history: starting from a
pending, never-cancelled arm whose duration is the handler's timeout, a
rapid succession of further resets (each at or after the previous one and
strictly before its deadline) leaves exactly one fire, at the last arm
time plus the timeout — every replaced arm is cancelled strictly before
its deadline and so never fires. -/
theorem runResets_aux (timeout : ℚ) :
    ∀ (ts : List ℚ) (a : Arm) (log : List Arm),
      a.cancelledAt = none → a.duration = timeout →
      List.Chain' (fun x y => x ≤ y ∧ y < x + timeout) (a.armedAt :: ts) →
      (∀ b ∈ log, armFires b = none) →
      firesOf (ts.foldl (reset_silence_timer timeout) ⟨some a, log⟩) =
        [ts.getLastD a.armedAt + timeout] := by
  intro ts
  induction ts with
  | nil =>
    intro a log hcan hdur _ hlog
    simp only [List.foldl_nil, firesOf, allArms, List.filterMap_append]
    rw [List.filterMap_eq_nil_iff.mpr hlog]
    simp [armFires, hcan, hdur, List.getLastD]
  | cons t rest ih =>
    intro a log hcan hdur hchain hlog
    obtain ⟨⟨hle, hlt⟩, hchain'⟩ := List.chain'_cons.mp hchain
    rw [List.foldl_cons]
    have hstep : reset_silence_timer timeout ⟨some a, log⟩ t =
        ⟨some ⟨t, timeout, none⟩,
         log ++ [{ a with cancelledAt := some t }]⟩ := rfl
    rw [hstep]
    have hlog' : ∀ b ∈ log ++ [{ a with cancelledAt := some t }],
        armFires b = none := by
      intro b hb
      rcases List.mem_append.mp hb with h | h
      · exact hlog b h
      · rw [List.mem_singleton.mp h]
        simp only [armFires]
        rw [if_pos]
        simpa [hdur] using hlt
    have h := ih ⟨t, timeout, none⟩ (log ++ [{ a with cancelledAt := some t }])
      rfl rfl hchain' hlog'
    rw [h, List.getLastD_cons]

/-- C8: starting a silence timer and re-arming it N ≥ 1 times in rapid
succession (each reset at or after the previous one and strictly before
the previously armed timer's expiry) produces exactly one callback fire,
at `silence_timeout` after the *last* reset: every superseded
`threading.Timer` is cancelled while still waiting and never fires, and
an arm fires at most once (its fire time is a single `Option` value),
unless cancelled first. -/
theorem reset_silence_timer_single_fire (timeout t : ℚ) (ts : List ℚ)
    (hchain : List.Chain' (fun x y => x ≤ y ∧ y < x + timeout) (t :: ts)) :
    firesOf (runResets timeout (t :: ts)) = [ts.getLastD t + timeout] := by
  unfold runResets
  rw [List.foldl_cons]
  have hstep : reset_silence_timer timeout ⟨none, []⟩ t =
      ⟨some ⟨t, timeout, none⟩, []⟩ := rfl
  rw [hstep]
  exact runResets_aux timeout ts ⟨t, timeout, none⟩ [] rfl rfl hchain
    (by simp)

/-- Witness for C8: three resets at times 0, 1, 2 with a 5-second timeout
fire exactly once, at time 7 = 2 + 5. -/
theorem reset_silence_timer_single_fire_witness :
    firesOf (runResets 5 [0, 1, 2]) = [7] := by
  have h := reset_silence_timer_single_fire 5 0 [1, 2]
    (by norm_num [List.chain'_cons])
  rw [h]
  norm_num [List.getLastD]

/-- C10: the offline `SpeechRecognizer.recognize` never raises and
degrades through sentinels: with Vosk absent it returns
`"[Speech recognition unavailable]"`; when the requested language has no
model (even after a download attempt) it silently substitutes the English
model whenever one is loaded — the result is exactly the English-model
recognition — and returns `"[Speech recognition model not available]"`
when English is unavailable too; an internal recognizer exception yields
`"[Speech recognition error]"`.  All cases return plain strings; no
failure propagates to the caller. -/
theorem recognize_offline_fallbacks {α M R : Type} (ops : RecOps α M R)
    (s : RecState M R) (audio : α) (language : String) :
    (s.vosk_available = false →
      recognize ops s audio language false =
        ("[Speech recognition unavailable]", s)) ∧
    (s.vosk_available = true → s.models.lookup language = none →
      (ops.download language s.models).lookup language = none →
      ((ops.download language s.models).lookup "en").isSome →
      (recognize ops s audio language false).1 =
        (recognizeCore ops (ops.download language s.models) s.recognizers
          "en" audio).1) ∧
    (s.vosk_available = true → s.models.lookup language = none →
      (ops.download language s.models).lookup language = none →
      (ops.download language s.models).lookup "en" = none →
      (recognize ops s audio language false).1 =
        "[Speech recognition model not available]") ∧
    (∀ m r e, s.vosk_available = true →
      s.models.lookup language = some m →
      s.recognizers.lookup language = some r →
      ops.accept r audio = .error e →
      (recognize ops s audio language false).1 =
        "[Speech recognition error]") := by
  refine ⟨?_, ?_, ?_, ?_⟩
  · intro hva
    simp [recognize, recognizeOffline, hva]
  · intro hva hmiss hdl hen
    obtain ⟨v, hv⟩ := Option.isSome_iff_exists.mp hen
    simp [recognize, recognizeOffline, hva, hmiss, hdl, hv]
  · intro hva hmiss hdl hen
    simp [recognize, recognizeOffline, hva, hmiss, hdl, hen]
  · intro m r e hva hfound hrec hacc
    simp [recognize, recognizeOffline, recognizeCore, hva, hfound, hrec,
      hacc]

/-- Witness for C10: four concrete configurations, one per fallback
branch — Vosk absent; English substitution (requested `tl`, only an `en`
model and cached recognizer, recognition yields `"hello"`); no model at
all (only a `ko` model, no English); and a raising recognizer. -/
theorem recognize_offline_fallbacks_witness :
    recognize (α := ℕ) (M := ℕ) (R := ℕ)
      ⟨fun _ m => m, fun m => .ok (m + 1), fun _ _ => .ok (true, "hello"),
        fun _ _ => .error "off"⟩ ⟨false, [], []⟩ 0 "en" false =
      ("[Speech recognition unavailable]", ⟨false, [], []⟩) ∧
    (recognize (α := ℕ) (M := ℕ) (R := ℕ)
      ⟨fun _ m => m, fun m => .ok (m + 1), fun _ _ => .ok (true, "hello"),
        fun _ _ => .error "off"⟩ ⟨true, [("en", 7)], [("en", 3)]⟩ 0 "tl"
        false).1 = "hello" ∧
    (recognize (α := ℕ) (M := ℕ) (R := ℕ)
      ⟨fun _ m => m, fun m => .ok (m + 1), fun _ _ => .ok (true, "hello"),
        fun _ _ => .error "off"⟩ ⟨true, [("ko", 5)], []⟩ 0 "tl" false).1 =
      "[Speech recognition model not available]" ∧
    (recognize (α := ℕ) (M := ℕ) (R := ℕ)
      ⟨fun _ m => m, fun m => .ok (m + 1), fun _ _ => .error "crash",
        fun _ _ => .error "off"⟩ ⟨true, [("en", 7)], [("en", 3)]⟩ 0 "en"
        false).1 = "[Speech recognition error]" := by
  refine ⟨?_, ?_, ?_, ?_⟩
  · exact (recognize_offline_fallbacks
      ⟨fun _ m => m, fun m => .ok (m + 1), fun _ _ => .ok (true, "hello"),
        fun _ _ => .error "off"⟩ ⟨false, [], []⟩ 0 "en").1 rfl
  · rw [(recognize_offline_fallbacks
      ⟨fun _ m => m, fun m => .ok (m + 1), fun _ _ => .ok (true, "hello"),
        fun _ _ => .error "off"⟩ ⟨true, [("en", 7)], [("en", 3)]⟩ 0
      "tl").2.1 rfl rfl rfl rfl]
    rfl
  · exact (recognize_offline_fallbacks
      ⟨fun _ m => m, fun m => .ok (m + 1), fun _ _ => .ok (true, "hello"),
        fun _ _ => .error "off"⟩ ⟨true, [("ko", 5)], []⟩ 0 "tl").2.2.1
      rfl rfl rfl rfl
  · exact (recognize_offline_fallbacks
      ⟨fun _ m => m, fun m => .ok (m + 1), fun _ _ => .error "crash",
        fun _ _ => .error "off"⟩ ⟨true, [("en", 7)], [("en", 3)]⟩ 0
      "en").2.2.2 7 3 "crash" rfl rfl rfl rfl

end VoiceTranslation
